import Mathlib

/-!
Verification of the user-directory manager (src/src/App.tsx).

The client-side state and event handlers are shallowly embedded from the
source; the remote REST collection endpoint (mockapi.io) is not part of the
repository and is modelled from the spec's REST contract (section 6).  Each
user interaction together with its transport outcome is one atomic event of
a step function over the combined system state (client view state, server
collection, trace of network calls).
-/

namespace UserDirectory

/-- A user record: `interface User` in App.tsx. -/
structure User where
  id : String
  name : String
  email : String
  deriving DecidableEq, Repr

/-- Form contents: `interface NewUser` in App.tsx. -/
structure NewUser where
  name : String
  email : String
  deriving DecidableEq, Repr

/-- The empty form, `{ name: "", email: "" }`. -/
def emptyForm : NewUser := ⟨"", ""⟩

/-- One network call issued by the client (GET is implicit in the
invalidate-and-refetch step, the mutations are recorded explicitly). -/
inductive NetCall where
  | post (u : NewUser)
  | put (id : String) (u : NewUser)
  | delete (id : String)
  deriving DecidableEq, Repr

/-- Modelled from the spec: the remote collection resource.  The repository
contains only the client; the spec says the server holds the collection and
assigns opaque string identifiers on create. -/
structure ServerState where
  users : List User
  nextId : Nat
  deriving DecidableEq, Repr

/-- Modelled from the spec: the opaque, server-assigned identifier for the
`n`-th created record.  The concrete scheme is irrelevant (the spec calls the
id opaque); this one makes freshness provable. -/
def freshId (n : Nat) : String := String.mk (List.replicate n 'u')

/-- Modelled from the spec: `POST /user` with `{name, email}` creates a
record with a fresh server-assigned id and returns it. -/
def serverCreate (s : ServerState) (nu : NewUser) : ServerState × User :=
  let u : User := ⟨freshId s.nextId, nu.name, nu.email⟩
  ({ users := s.users ++ [u], nextId := s.nextId + 1 }, u)

/-- Modelled from the spec: `PUT /user/{id}` with `{name, email}` replaces
the name and email of the record with that id (id unchanged). -/
def serverUpdate (s : ServerState) (id : String) (nu : NewUser) : ServerState :=
  { s with
    users := s.users.map fun u =>
      if u.id = id then { u with name := nu.name, email := nu.email } else u }

/-- Modelled from the spec: `DELETE /user/{id}` removes the record with that
id from the collection. -/
def serverDelete (s : ServerState) (id : String) : ServerState :=
  { s with users := s.users.filter fun u => u.id != id }

/-- `fetchUsers`: `GET /user` returns the full collection. -/
def fetchUsers (s : ServerState) : List User := s.users

/-- `addUser`: posts the form contents, returns the created record. -/
def addUser (s : ServerState) (newUser : NewUser) : ServerState × User :=
  serverCreate s newUser

/-- `updateUser`: puts the form contents at the given id. -/
def updateUser (s : ServerState) (id : String) (user : NewUser) : ServerState :=
  serverUpdate s id user

/-- `deleteUser`: deletes the given id and returns that id. -/
def deleteUser (s : ServerState) (id : String) : ServerState × String :=
  (serverDelete s id, id)

/-- Client view state: the four `useState` hooks plus the query cache. -/
structure AppState where
  newUser : NewUser
  editingUser : Option User
  errorMessage : Option String
  deletingId : Option String
  cache : List User
  deriving DecidableEq, Repr

/-- The whole system: client state, server state, trace of mutation calls. -/
structure Sys where
  app : AppState
  server : ServerState
  calls : List NetCall
  deriving DecidableEq, Repr

/-- Text that `addMutation.onError` puts before the transport message. -/
def addErrorLabel : String := "Qo‘shishda xato: "

/-- Text that `updateMutation.onError` puts before the transport message. -/
def updateErrorLabel : String := "Yangilashda xato: "

/-- Text that `deleteMutation.onError` puts before the transport message. -/
def deleteErrorLabel : String := "O‘chirishda xato: "

/-- A transport outcome: `none` is success, `some msg` is a transport
failure whose `error.message` is `msg`. -/
abbrev Outcome := Option String

/-- `handleAddOrUpdate` together with the mutation's settlement.  If a user
is being edited the update mutation is issued at that user's id with the
current form values, otherwise the add mutation is issued; either way the
form is reset (line 122 runs unconditionally).  On success the mutation's
`onSuccess` invalidates the users query (modelled as an immediate
refetch), clears the error banner, and for update forgets the editing
selection; on error `onError` sets the prefixed error banner. -/
def handleAddOrUpdate (sys : Sys) (res : Outcome) : Sys :=
  match sys.app.editingUser with
  | some eu =>
    match res with
    | none =>
      let server' := updateUser sys.server eu.id sys.app.newUser
      { app := { sys.app with
          newUser := emptyForm
          editingUser := none
          errorMessage := none
          cache := fetchUsers server' }
        server := server'
        calls := sys.calls ++ [NetCall.put eu.id sys.app.newUser] }
    | some msg =>
      { app := { sys.app with
          newUser := emptyForm
          errorMessage := some (updateErrorLabel ++ msg) }
        server := sys.server
        calls := sys.calls ++ [NetCall.put eu.id sys.app.newUser] }
  | none =>
    match res with
    | none =>
      let server' := (addUser sys.server sys.app.newUser).1
      { app := { sys.app with
          newUser := emptyForm
          errorMessage := none
          cache := fetchUsers server' }
        server := server'
        calls := sys.calls ++ [NetCall.post sys.app.newUser] }
    | some msg =>
      { app := { sys.app with
          newUser := emptyForm
          errorMessage := some (addErrorLabel ++ msg) }
        server := sys.server
        calls := sys.calls ++ [NetCall.post sys.app.newUser] }

/-- `handleEdit`: populate the form from the chosen record, remember it as
the editing selection, clear the error banner. -/
def handleEdit (sys : Sys) (u : User) : Sys :=
  { sys with app := { sys.app with
      editingUser := some u
      newUser := ⟨u.name, u.email⟩
      errorMessage := none } }

/-- `handleClearForm`: reset form, forget editing selection, clear error. -/
def handleClearForm (sys : Sys) : Sys :=
  { sys with app := { sys.app with
      newUser := emptyForm
      editingUser := none
      errorMessage := none } }

/-- `handleDelete` together with the dialog answer and, when confirmed, the
delete mutation's settlement.  Without confirmation nothing happens.  With
confirmation the deleting marker is set and the mutation issued; `onSuccess`
refetches, clears the error banner and the marker; `onError` sets the
prefixed error banner and clears the marker. -/
def handleDelete (sys : Sys) (id : String) (confirmed : Bool) (res : Outcome) : Sys :=
  if confirmed then
    match res with
    | none =>
      let server' := (deleteUser sys.server id).1
      { app := { sys.app with
          errorMessage := none
          deletingId := none
          cache := fetchUsers server' }
        server := server'
        calls := sys.calls ++ [NetCall.delete id] }
    | some msg =>
      { app := { sys.app with
          errorMessage := some (deleteErrorLabel ++ msg)
          deletingId := none }
        server := sys.server
        calls := sys.calls ++ [NetCall.delete id] }
  else
    sys

/-- The name input's `onChange` handler. -/
def setName (sys : Sys) (s : String) : Sys :=
  { sys with app := { sys.app with newUser := { sys.app.newUser with name := s } } }

/-- The email input's `onChange` handler. -/
def setEmail (sys : Sys) (s : String) : Sys :=
  { sys with app := { sys.app with newUser := { sys.app.newUser with email := s } } }

/-- One user interaction, with the transport outcome where one occurs. -/
inductive Event where
  | submit (res : Outcome)
  | edit (u : User)
  | clearForm
  | requestDelete (id : String) (confirmed : Bool) (res : Outcome)
  | typeName (s : String)
  | typeEmail (s : String)
  deriving DecidableEq, Repr

/-- Dispatch one event to its handler. -/
def step (sys : Sys) : Event → Sys
  | Event.submit res => handleAddOrUpdate sys res
  | Event.edit u => handleEdit sys u
  | Event.clearForm => handleClearForm sys
  | Event.requestDelete id confirmed res => handleDelete sys id confirmed res
  | Event.typeName s => setName sys s
  | Event.typeEmail s => setEmail sys s

/-- Run a sequence of events. -/
def run (sys : Sys) : List Event → Sys
  | [] => sys
  | e :: es => run (step sys e) es

/-- The initial view over a given server collection: empty form, no editing
selection, no error, no deleting marker, cache freshly fetched. -/
def initSys (server : ServerState) : Sys :=
  { app := { newUser := emptyForm
             editingUser := none
             errorMessage := none
             deletingId := none
             cache := fetchUsers server }
    server := server
    calls := [] }

/-- The ids of the server collection are pairwise distinct, and every id was
assigned by the fresh-id scheme strictly below the current counter. -/
def idsOk (s : ServerState) : Prop :=
  (s.users.map User.id).Nodup ∧
  ∀ u ∈ s.users, ∃ m, m < s.nextId ∧ u.id = freshId m

/-- System invariant for the duplicate-id claim: the server is well formed
and the cached collection has pairwise distinct ids. -/
def SysOk (sys : Sys) : Prop :=
  idsOk sys.server ∧ (sys.app.cache.map User.id).Nodup

/-- A record used by the concrete scenarios. -/
def bobUser : User := ⟨freshId 0, "Bob", "bob@x.com"⟩

/-- A one-record server collection used by the concrete scenarios. -/
def demoServer : ServerState := ⟨[bobUser], 1⟩

/-- Concrete state: the create form filled with Ann's data, nothing being
edited, over `demoServer`. -/
def annFormSys : Sys :=
  { app := { newUser := ⟨"Ann", "ann@x.com"⟩
             editingUser := none
             errorMessage := none
             deletingId := none
             cache := fetchUsers demoServer }
    server := demoServer
    calls := [] }

/-- Concrete state: Bob selected for editing with new values typed in, and a
stale error banner still displayed. -/
def editBobSys : Sys :=
  { app := { newUser := ⟨"Robert", "robert@x.com"⟩
             editingUser := some bobUser
             errorMessage := some "old error"
             deletingId := none
             cache := fetchUsers demoServer }
    server := demoServer
    calls := [] }

theorem freshId_injective : Function.Injective freshId := by
  intro a b h
  have hd : List.replicate a 'u' = List.replicate b 'u' := congrArg String.data h
  simpa using congrArg List.length hd

theorem idsOk_create (s : ServerState) (nu : NewUser) (h : idsOk s) :
    idsOk (serverCreate s nu).1 := by
  obtain ⟨hnd, hb⟩ := h
  simp only [serverCreate, idsOk]
  constructor
  · simp only [List.map_append, List.map_cons, List.map_nil]
    rw [List.nodup_append]
    refine ⟨hnd, List.nodup_singleton _, ?_⟩
    intro x hx hx'
    simp only [List.mem_singleton] at hx'
    subst hx'
    obtain ⟨u, hu, hid⟩ := List.mem_map.mp hx
    obtain ⟨m, hm, he⟩ := hb u hu
    have : m = s.nextId := freshId_injective (by rw [← he, hid])
    omega
  · intro u hu
    simp only [List.mem_append, List.mem_singleton] at hu
    rcases hu with hu | rfl
    · obtain ⟨m, hm, he⟩ := hb u hu
      exact ⟨m, by omega, he⟩
    · exact ⟨s.nextId, by omega, rfl⟩

theorem idsOk_update (s : ServerState) (id : String) (nu : NewUser)
    (h : idsOk s) : idsOk (serverUpdate s id nu) := by
  obtain ⟨hnd, hb⟩ := h
  have hid : ∀ u : User,
      (if u.id = id then { u with name := nu.name, email := nu.email } else u).id
        = u.id := by
    intro u; split <;> rfl
  constructor
  · have : (serverUpdate s id nu).users.map User.id = s.users.map User.id := by
      simp only [serverUpdate, List.map_map]
      exact List.map_congr_left fun u _ => hid u
    rw [this]; exact hnd
  · intro u hu
    simp only [serverUpdate, List.mem_map] at hu
    obtain ⟨v, hv, he⟩ := hu
    obtain ⟨m, hm, hvm⟩ := hb v hv
    exact ⟨m, hm, by rw [← he, hid v, hvm]⟩

theorem idsOk_delete (s : ServerState) (id : String) (h : idsOk s) :
    idsOk (serverDelete s id) := by
  obtain ⟨hnd, hb⟩ := h
  constructor
  · exact hnd.sublist ((List.filter_sublist _).map User.id)
  · intro u hu
    exact hb u (List.mem_of_mem_filter hu)

theorem sysOk_step (sys : Sys) (e : Event) (h : SysOk sys) : SysOk (step sys e) := by
  obtain ⟨hs, hc⟩ := h
  cases e with
  | submit res =>
    cases he : sys.app.editingUser with
    | none =>
      cases res with
      | none =>
        simp only [step, handleAddOrUpdate, he, addUser, fetchUsers, SysOk]
        exact ⟨idsOk_create _ _ hs, (idsOk_create _ _ hs).1⟩
      | some msg =>
        simp only [step, handleAddOrUpdate, he, SysOk]
        exact ⟨hs, hc⟩
    | some eu =>
      cases res with
      | none =>
        simp only [step, handleAddOrUpdate, he, updateUser, fetchUsers, SysOk]
        exact ⟨idsOk_update _ _ _ hs, (idsOk_update _ _ _ hs).1⟩
      | some msg =>
        simp only [step, handleAddOrUpdate, he, SysOk]
        exact ⟨hs, hc⟩
  | edit u => exact ⟨hs, hc⟩
  | clearForm => exact ⟨hs, hc⟩
  | requestDelete id confirmed res =>
    cases confirmed with
    | false => exact ⟨hs, hc⟩
    | true =>
      cases res with
      | none =>
        simp only [step, handleDelete, if_true, deleteUser, fetchUsers, SysOk]
        exact ⟨idsOk_delete _ _ hs, (idsOk_delete _ _ hs).1⟩
      | some msg =>
        simp only [step, handleDelete, if_true, SysOk]
        exact ⟨hs, hc⟩
  | typeName s => exact ⟨hs, hc⟩
  | typeEmail s => exact ⟨hs, hc⟩

theorem run_sysOk (sys : Sys) (evs : List Event) (h : SysOk sys) :
    SysOk (run sys evs) := by
  induction evs generalizing sys with
  | nil => exact h
  | cons e es ih => exact ih _ (sysOk_step sys e h)

/-- C1 counterexample: with the create form holding Ann's submitted values,
a create that fails with message "boom" does NOT retain those values — the
form comes back empty, because `handleAddOrUpdate` resets the form
unconditionally, so "the form is cleared only when the create succeeds,
never on failure" is false. -/
theorem c1_counterexample :
    annFormSys.app.newUser = ⟨"Ann", "ann@x.com"⟩ ∧
    (step annFormSys (Event.submit (some "boom"))).app.newUser ≠
      ⟨"Ann", "ann@x.com"⟩ := by
  decide

/-- C1 (amended): a create submission that fails with a transport error
leaves the cached list and the server collection unchanged and displays the
labelled failure message, but the form fields are cleared on every
submission, success or failure alike. -/
theorem c1_create_failure (sys : Sys) (msg : String)
    (h : sys.app.editingUser = none) :
    (step sys (Event.submit (some msg))).app.cache = sys.app.cache ∧
    (step sys (Event.submit (some msg))).server = sys.server ∧
    (step sys (Event.submit (some msg))).app.errorMessage =
      some (addErrorLabel ++ msg) ∧
    (step sys (Event.submit (some msg))).app.newUser = emptyForm := by
  simp [step, handleAddOrUpdate, h]

/-- Witness for C1 at the concrete Ann scenario. -/
theorem c1_create_failure_witness :
    (step annFormSys (Event.submit (some "boom"))).app.cache =
      annFormSys.app.cache ∧
    (step annFormSys (Event.submit (some "boom"))).server = annFormSys.server ∧
    (step annFormSys (Event.submit (some "boom"))).app.errorMessage =
      some (addErrorLabel ++ "boom") ∧
    (step annFormSys (Event.submit (some "boom"))).app.newUser = emptyForm :=
  c1_create_failure annFormSys "boom" rfl

/-- C2: starting from any well-formed system, after any sequence of events
the rendered list has at most one record per identifier; moreover after a
successful create/update submission or a confirmed successful delete the
cache is exactly the re-fetched full server list (full replacement, no
merge). -/
theorem c2_no_duplicate_ids (sys : Sys) (evs : List Event) (id : String)
    (h : SysOk sys) :
    ((run sys evs).app.cache.map User.id).Nodup ∧
    (step sys (Event.submit none)).app.cache =
      fetchUsers (step sys (Event.submit none)).server ∧
    (step sys (Event.requestDelete id true none)).app.cache =
      fetchUsers (step sys (Event.requestDelete id true none)).server := by
  refine ⟨(run_sysOk sys evs h).2, ?_, ?_⟩
  · cases he : sys.app.editingUser <;> simp [step, handleAddOrUpdate, he]
  · simp [step, handleDelete]

/-- Witness for C2: an empty collection, two creates and a confirmed
delete. -/
theorem c2_no_duplicate_ids_witness :
    ((run (initSys ⟨[], 0⟩) [Event.submit none, Event.submit none,
        Event.requestDelete (freshId 0) true none]).app.cache.map
        User.id).Nodup ∧
    (step (initSys ⟨[], 0⟩) (Event.submit none)).app.cache =
      fetchUsers (step (initSys ⟨[], 0⟩) (Event.submit none)).server ∧
    (step (initSys ⟨[], 0⟩) (Event.requestDelete (freshId 0) true none)).app.cache =
      fetchUsers (step (initSys ⟨[], 0⟩)
        (Event.requestDelete (freshId 0) true none)).server :=
  c2_no_duplicate_ids (initSys ⟨[], 0⟩)
    [Event.submit none, Event.submit none,
      Event.requestDelete (freshId 0) true none] (freshId 0)
    (by simp [SysOk, idsOk, initSys, fetchUsers])

/-- C3: choosing a record for editing populates the form with that record's
name and email and remembers it as the selection; submitting while a
selection is active appends exactly one PUT call at the selected record's
id with the current form values — never a POST. -/
theorem c3_edit_then_update (sys : Sys) (u eu : User) (res : Outcome)
    (h : sys.app.editingUser = some eu) :
    (step sys (Event.edit u)).app.newUser = ⟨u.name, u.email⟩ ∧
    (step sys (Event.edit u)).app.editingUser = some u ∧
    (step sys (Event.submit res)).calls =
      sys.calls ++ [NetCall.put eu.id sys.app.newUser] := by
  refine ⟨rfl, rfl, ?_⟩
  cases res <;> simp [step, handleAddOrUpdate, h]

/-- Witness for C3 at the concrete Bob-editing scenario. -/
theorem c3_edit_then_update_witness :
    (step editBobSys (Event.edit bobUser)).app.newUser =
      ⟨bobUser.name, bobUser.email⟩ ∧
    (step editBobSys (Event.edit bobUser)).app.editingUser = some bobUser ∧
    (step editBobSys (Event.submit none)).calls =
      editBobSys.calls ++ [NetCall.put bobUser.id editBobSys.app.newUser] :=
  c3_edit_then_update editBobSys bobUser bobUser none rfl

/-- C4: a confirmed delete that succeeds appends exactly one DELETE call for
that id, and the refreshed cached list contains no record with that id. -/
theorem c4_confirmed_delete (sys : Sys) (id : String) :
    (step sys (Event.requestDelete id true none)).calls =
      sys.calls ++ [NetCall.delete id] ∧
    ((step sys (Event.requestDelete id true none)).app.cache.all
      fun u => u.id != id) = true := by
  constructor
  · simp [step, handleDelete]
  · simp only [step, handleDelete, if_true, deleteUser, fetchUsers,
      serverDelete, List.all_eq_true]
    intro u hu
    exact (List.mem_filter.mp hu).2

/-- C5 counterexample: the displayed error text after a failed create with
transport message "boom" is not the transport message itself — it carries
the operation label in front. -/
theorem c5_counterexample :
    (step annFormSys (Event.submit (some "boom"))).app.errorMessage ≠
      some "boom" := by
  decide

/-- C5 (amended): the displayed error text after a failed operation is an
operation-specific label followed by the transport's message text, not the
message verbatim. -/
theorem c5_error_text (sys : Sys) (msg : String) (id : String) :
    (step sys (Event.submit (some msg))).app.errorMessage =
      some ((match sys.app.editingUser with
             | none => addErrorLabel
             | some _ => updateErrorLabel) ++ msg) ∧
    (step sys (Event.requestDelete id true (some msg))).app.errorMessage =
      some (deleteErrorLabel ++ msg) := by
  constructor
  · cases he : sys.app.editingUser <;> simp [step, handleAddOrUpdate, he]
  · simp [step, handleDelete]

/-- C6: requesting a delete and not confirming the dialog changes nothing at
all — no network call is recorded and every piece of view state, the cache
and the server are untouched. -/
theorem c6_unconfirmed_delete (sys : Sys) (id : String) (res : Outcome) :
    step sys (Event.requestDelete id false res) = sys := by
  simp [step, handleDelete]

/-- C7: a successful submission clears the form, forgets the editing
selection and the error banner; a failed submission surfaces an error
message; choosing a record populates the form and sets the selection, and
the selection survives typing and delete events, being dropped by the clear
action (and by successful submission, per the first conjuncts). -/
theorem c7_submit_and_selection (sys : Sys) (msg : String) (u : User)
    (s t : String) (id : String) (confirmed : Bool) (res : Outcome) :
    (step sys (Event.submit none)).app.newUser = emptyForm ∧
    (step sys (Event.submit none)).app.editingUser = none ∧
    (step sys (Event.submit none)).app.errorMessage = none ∧
    ((step sys (Event.submit (some msg))).app.errorMessage).isSome = true ∧
    (step sys (Event.edit u)).app.editingUser = some u ∧
    (step sys (Event.edit u)).app.newUser = ⟨u.name, u.email⟩ ∧
    (step sys Event.clearForm).app.editingUser = none ∧
    (step sys (Event.typeName s)).app.editingUser = sys.app.editingUser ∧
    (step sys (Event.typeEmail t)).app.editingUser = sys.app.editingUser ∧
    (step sys (Event.requestDelete id confirmed res)).app.editingUser =
      sys.app.editingUser := by
  cases he : sys.app.editingUser <;> cases confirmed <;> cases res <;>
    simp [step, handleAddOrUpdate, handleEdit, handleClearForm, handleDelete,
      setName, setEmail, he]

/-- C8: a confirmed delete that fails clears the in-progress marker (back to
`none`) and shows the labelled failure message. -/
theorem c8_delete_failure (sys : Sys) (id : String) (msg : String) :
    (step sys (Event.requestDelete id true (some msg))).app.deletingId = none ∧
    (step sys (Event.requestDelete id true (some msg))).app.errorMessage =
      some (deleteErrorLabel ++ msg) := by
  constructor <;> simp [step, handleDelete]

/-- C9: the delete operation returns exactly the id it was invoked with. -/
theorem c9_delete_returns_id (s : ServerState) (id : String) :
    (deleteUser s id).2 = id := rfl

/-- C10: every successful mutation — create or update submission, confirmed
delete — leaves the error message state `none`, whatever was displayed
before. -/
theorem c10_success_clears_error (sys : Sys) (id : String) :
    (step sys (Event.submit none)).app.errorMessage = none ∧
    (step sys (Event.requestDelete id true none)).app.errorMessage = none := by
  constructor
  · cases he : sys.app.editingUser <;> simp [step, handleAddOrUpdate, he]
  · simp [step, handleDelete]

end UserDirectory
